import Mathlib

/-!
Shallow embedding of the product-locator extraction and purchase-request
assembly pipeline of the Amazon purchase agent (src/src/index.ts).

The embedded functions are the pure cores of:
  * `extractAmazonProductId` (index.ts lines 65-79): regex scan for the ASIN
    after a `/dp/` or `/gp/product/` path marker;
  * `formatProductLocator` (index.ts lines 86-89);
  * the request-building part of `purchaseProduct` (index.ts lines 109-159);
  * the request-building part of `handleAmazonPurchase` (index.ts lines 181-236).

JavaScript string semantics are modelled explicitly: `split` with a string
separator (leftmost, non-overlapping, keeps empty pieces), out-of-bounds
indexing yielding `undefined` (here `Option`), and the `x || "US"` default
that also replaces an empty string (falsiness).
-/

/-! ## JavaScript-style string splitting -/

/-- Does `sep` occur at the head of `s`? -/
def headMatches : List Char → List Char → Bool
  | [], _ => true
  | _ :: _, [] => false
  | m :: ms, c :: cs => c = m && headMatches ms cs

/-- Fuel-driven worker for `jsSplit`: scan left to right, cutting at each
occurrence of `sep` (non-overlapping, leftmost).  With fuel at least the
length of the scanned list and a non-empty separator the fuel never runs
out; the fuel-0 fallback returns the piece accumulated so far. -/
def jsSplitAux (sep : List Char) : Nat → List Char → List Char → List (List Char)
  | 0, s, acc => [acc.reverse ++ s]
  | _ + 1, [], acc => [acc.reverse]
  | n + 1, c :: cs, acc =>
    if headMatches sep (c :: cs) then
      acc.reverse :: jsSplitAux sep n (List.drop sep.length (c :: cs)) []
    else
      jsSplitAux sep n cs (c :: acc)

/-- JavaScript `String.prototype.split` with a non-empty string separator:
splits on every non-overlapping occurrence, keeping empty pieces (so the
result is never the empty list). -/
def jsSplit (sep s : String) : List String :=
  (jsSplitAux sep.data s.data.length s.data []).map String.mk

/-- JavaScript `x || d` for `x` an optional string: `undefined` and the
empty string (both falsy) fall back to the default `d`. -/
def jsOrD : Option String → String → String
  | some s, d => if s = "" then d else s
  | none, d => d

/-! ## Locator extraction (`extractAmazonProductId`, index.ts 65-79) -/

/-- Is `c` in the regex character class `[A-Z0-9]`? -/
def isUpperAlnum (c : Char) : Bool :=
  (decide ('A' ≤ c) && decide (c ≤ 'Z')) || (decide ('0' ≤ c) && decide (c ≤ '9'))

/-- Strip `m` from the head of `s`; `none` when `s` does not start with `m`. -/
def dropMarker : List Char → List Char → Option (List Char)
  | [], s => some s
  | _ :: _, [] => none
  | m :: ms, c :: cs => if c = m then dropMarker ms cs else none

/-- Take exactly `n` characters of class `[A-Z0-9]` from the head of `s`,
returning them and the rest; `none` when fewer are available. -/
def takeAsin : Nat → List Char → Option (List Char × List Char)
  | 0, s => some ([], s)
  | _ + 1, [] => none
  | n + 1, c :: cs =>
    if isUpperAlnum c then (takeAsin n cs).map (fun p => (c :: p.1, p.2)) else none

/-- The regex tail `(\/|\?|$)`: end of string, `/`, or `?`. -/
def sepOk : List Char → Bool
  | [] => true
  | c :: _ => c = '/' || c = '?'

/-- Try to match `marker` + 10 chars of `[A-Z0-9]` + `(\/|\?|$)` at the very
start of `s`, returning the captured 10-character group. -/
def tryMatch (marker s : List Char) : Option (List Char) :=
  (dropMarker marker s).bind fun rest =>
    (takeAsin 10 rest).bind fun p =>
      if sepOk p.2 then some p.1 else none

/-- Leftmost-match regex scan: try `tryMatch` at each successive start
position, returning the first capture (JavaScript `String.match`). -/
def scanMatch (marker : List Char) : List Char → Option (List Char)
  | [] => none
  | c :: cs =>
    match tryMatch marker (c :: cs) with
    | some a => some a
    | none => scanMatch marker cs

/-- The `/dp/` path marker of the first regex. -/
def dpMarker : List Char := ['/', 'd', 'p', '/']

/-- The `/gp/product/` path marker of the second regex. -/
def gpMarker : List Char := ['/', 'g', 'p', '/', 'p', 'r', 'o', 'd', 'u', 'c', 't', '/']

/-- Error message thrown when neither regex matches (index.ts line 75). -/
def extractionMsg : String := "Could not extract product ID from Amazon URL"

/-- Core of `extractAmazonProductId` on character lists: the `/dp/` regex is
tried first, then `/gp/product/`; no match at all throws. -/
def extractAsin (url : List Char) : Except String (List Char) :=
  match scanMatch dpMarker url with
  | some a => .ok a
  | none =>
    match scanMatch gpMarker url with
    | some a => .ok a
    | none => .error extractionMsg

/-- `extractAmazonProductId` (index.ts 65-79). -/
def extractAmazonProductId (url : String) : Except String String :=
  (extractAsin url.data).map String.mk

/-! ### Declarative regex-match predicates (the spec side of C1) -/

/-- The regex tail `(\/|\?|$)`, stated declaratively: the rest of the URL
is empty or starts with '/' or '?'. -/
def SepShape (post : List Char) : Prop :=
  post = [] ∨ (∃ t, post = '/' :: t) ∨ (∃ t, post = '?' :: t)

/-- The URL `s` carries, at position `i`, the marker followed immediately by
the 10-character uppercase-alphanumeric segment `a` and then a '/', '?' or
the end of the string. -/
def SegmentAt (marker s : List Char) (i : Nat) (a : List Char) : Prop :=
  a.length = 10 ∧ (∀ c ∈ a, isUpperAlnum c = true) ∧
  ∃ post, s.drop i = marker ++ (a ++ post) ∧ SepShape post

/-- The URL carries such a segment somewhere. -/
def HasSegment (marker s : List Char) : Prop := ∃ i a, SegmentAt marker s i a

/-- `a` is the leftmost such segment of the URL (the first successful
match of the regex). -/
def FirstSegment (marker s a : List Char) : Prop :=
  ∃ i, SegmentAt marker s i a ∧ ∀ j, j < i → ∀ b, ¬ SegmentAt marker s j b

/-! ## Locator formatting (`formatProductLocator`, index.ts 86-89) -/

/-- `formatProductLocator` (index.ts 86-89): the template `amazon:${productId}`. -/
def formatProductLocator (productId : String) : String :=
  "amazon:" ++ productId

/-! ## The purchase request data model -/

/-- `recipient.physicalAddress` of the `buy_token` payload.  `postalCode` is
`Option` because `stateZip[1]` is `undefined` when the state/ZIP part has no
space. -/
structure PhysicalAddress where
  name : String
  line1 : String
  city : String
  state : String
  postalCode : Option String
  country : String
  deriving Repr, DecidableEq

/-- `recipient` of the `buy_token` payload. -/
structure Recipient where
  email : String
  physicalAddress : PhysicalAddress
  deriving Repr, DecidableEq

/-- `payment` of the `buy_token` payload.  `chain` and `tokenAddress` are
`Option` because `purchaseProduct` omits them while `handleAmazonPurchase`
sets them. -/
structure Payment where
  method : String
  currency : String
  payerAddress : String
  chain : Option String
  tokenAddress : Option String
  deriving Repr, DecidableEq

/-- One entry of `lineItems`. -/
structure LineItem where
  productLocator : String
  deriving Repr, DecidableEq

/-- The assembled `buy_token` payload. -/
structure PurchaseRequest where
  recipient : Recipient
  payment : Payment
  lineItems : List LineItem
  deriving Repr, DecidableEq

/-- Error message for a shipping address with fewer than 4 parts
(index.ts lines 113 and 192). -/
def addressFormatMsg : String :=
  "Invalid shipping address format. Expected: Name, Street, City, State ZIP, Country"

/-- Error message for a non-US country token (index.ts line 126). -/
def countryMsg : String := "Only US shipping addresses are currently supported"

/-! ## `purchaseProduct` request building (index.ts 109-159) -/

/-- Pure request-building core of `purchaseProduct` (index.ts 109-159):
split the address on ", ", require at least 4 parts, take street/city by
position, split part 3 on " " into state and postal code, default the
country to "US", validate the country, and assemble the payload (with the
country hardcoded to "US" and no `chain`/`tokenAddress` in `payment`). -/
def buildPurchaseRequestCore (name shippingAddress email productId walletAddress : String) :
    Except String PurchaseRequest :=
  let addressParts := jsSplit ", " shippingAddress
  if addressParts.length < 4 then
    .error addressFormatMsg
  else
    let street := addressParts.getD 1 ""
    let city := addressParts.getD 2 ""
    let stateZip := jsSplit " " (addressParts.getD 3 "")
    let state := stateZip.headD ""
    let postalCode := stateZip[1]?
    let country := jsOrD addressParts[4]? "US"
    if country ≠ "US" then
      .error countryMsg
    else
      .ok {
        recipient := {
          email := email,
          physicalAddress := {
            name := name,
            line1 := street,
            city := city,
            state := state,
            postalCode := postalCode,
            country := "US" } },
        payment := {
          method := "base",
          currency := "usdc",
          payerAddress := walletAddress,
          chain := none,
          tokenAddress := none },
        lineItems := [{ productLocator := formatProductLocator productId }] }

/-! ## `handleAmazonPurchase` request building (index.ts 181-236) -/

/-- The USDC-on-Base token contract address literal (index.ts line 229). -/
def usdcOnBase : String := "0x833589fCD6eDb6E08f4c7C32D4f71b54bdA02913"

/-- Pure request-building core of `handleAmazonPurchase` (index.ts 181-236):
extract the product id from the URL first, then parse the address exactly as
`purchaseProduct` does — but with NO country validation — and assemble the
payload (country hardcoded to "US"; `payment` carries `chain` and
`tokenAddress`). -/
def handleAmazonPurchaseCore (amazonUrl name shippingAddress email walletAddress : String) :
    Except String PurchaseRequest :=
  match extractAmazonProductId amazonUrl with
  | .error e => .error e
  | .ok productId =>
    let productLocator := formatProductLocator productId
    let addressParts := jsSplit ", " shippingAddress
    if addressParts.length < 4 then
      .error addressFormatMsg
    else
      let street := addressParts.getD 1 ""
      let city := addressParts.getD 2 ""
      let stateZip := jsSplit " " (addressParts.getD 3 "")
      let state := stateZip.headD ""
      let postalCode := stateZip[1]?
      let _country := jsOrD addressParts[4]? "US"
      .ok {
        recipient := {
          email := email,
          physicalAddress := {
            name := name,
            line1 := street,
            city := city,
            state := state,
            postalCode := postalCode,
            country := "US" } },
        payment := {
          method := "base",
          currency := "usdc",
          payerAddress := walletAddress,
          chain := some "base",
          tokenAddress := some usdcOnBase },
        lineItems := [{ productLocator := productLocator }] }

/-! ## Claim theorems -/

/-- C5: building a purchase request (the `purchaseProduct` path) with
shipping address "Joyce Lee, 1 SE 3rd Ave, Miami, FL 33131, US" succeeds
and emits a request with line1 = "1 SE 3rd Ave", city = "Miami",
state = "FL", postalCode = "33131" and country = "US". -/
theorem c5_miami_address_accepted :
    ∃ req, buildPurchaseRequestCore "Joyce Lee" "Joyce Lee, 1 SE 3rd Ave, Miami, FL 33131, US"
        "crossmintdemo@gmail.com" "B0CJCK8LCJ" "0xPayer" = .ok req ∧
      req.recipient.physicalAddress.line1 = "1 SE 3rd Ave" ∧
      req.recipient.physicalAddress.city = "Miami" ∧
      req.recipient.physicalAddress.state = "FL" ∧
      req.recipient.physicalAddress.postalCode = some "33131" ∧
      req.recipient.physicalAddress.country = "US" :=
  ⟨_, rfl, rfl, rfl, rfl, rfl, rfl⟩

/-- C7: `formatProductLocator` returns exactly the concatenation
"amazon:" ++ ref, with no normalization of the reference. -/
theorem c7_formatProductLocator_concat (ref : String) :
    formatProductLocator ref = "amazon:" ++ ref :=
  rfl

/-- C8 counterexample: `formatProductLocator` is not idempotent — applying
it twice to "B08SVZ775L" yields "amazon:amazon:B08SVZ775L", not
"amazon:B08SVZ775L". -/
theorem c8_counterexample :
    formatProductLocator (formatProductLocator "B08SVZ775L") ≠
      formatProductLocator "B08SVZ775L" := by
  decide

/-- C8 (amended): `formatProductLocator` is pure, deterministic formatting,
but it is not idempotent: applying it twice prepends the prefix twice,
so the doubled application differs from the single one for every string. -/
theorem c8_not_idempotent (x : String) :
    formatProductLocator (formatProductLocator x) = "amazon:amazon:" ++ x ∧
    formatProductLocator (formatProductLocator x) ≠ formatProductLocator x := by
  constructor
  · rfl
  · intro h
    have h2 := congrArg (fun s => s.data.length) h
    simp [formatProductLocator, String.data_append] at h2
    omega

/-! ## Helper lemmas about the builders -/

/-- When the 4-part check and the country gate both pass,
`buildPurchaseRequestCore` emits exactly this request. -/
theorem buildPurchaseRequestCore_ok (name addr email productId wallet : String)
    (hlt : ¬ (jsSplit ", " addr).length < 4)
    (hc : jsOrD (jsSplit ", " addr)[4]? "US" = "US") :
    buildPurchaseRequestCore name addr email productId wallet = .ok {
      recipient := {
        email := email,
        physicalAddress := {
          name := name,
          line1 := (jsSplit ", " addr).getD 1 "",
          city := (jsSplit ", " addr).getD 2 "",
          state := (jsSplit " " ((jsSplit ", " addr).getD 3 "")).headD "",
          postalCode := (jsSplit " " ((jsSplit ", " addr).getD 3 ""))[1]?,
          country := "US" } },
      payment := { method := "base", currency := "usdc", payerAddress := wallet,
                   chain := none, tokenAddress := none },
      lineItems := [{ productLocator := formatProductLocator productId }] } := by
  simp [buildPurchaseRequestCore, hlt, hc]

/-- When extraction succeeds and the 4-part check passes,
`handleAmazonPurchaseCore` emits exactly this request — with no country
validation at all. -/
theorem handleAmazonPurchaseCore_ok (url name addr email wallet p : String)
    (hx : extractAmazonProductId url = .ok p)
    (hlt : ¬ (jsSplit ", " addr).length < 4) :
    handleAmazonPurchaseCore url name addr email wallet = .ok {
      recipient := {
        email := email,
        physicalAddress := {
          name := name,
          line1 := (jsSplit ", " addr).getD 1 "",
          city := (jsSplit ", " addr).getD 2 "",
          state := (jsSplit " " ((jsSplit ", " addr).getD 3 "")).headD "",
          postalCode := (jsSplit " " ((jsSplit ", " addr).getD 3 ""))[1]?,
          country := "US" } },
      payment := { method := "base", currency := "usdc", payerAddress := wallet,
                   chain := some "base", tokenAddress := some usdcOnBase },
      lineItems := [{ productLocator := formatProductLocator p }] } := by
  simp [handleAmazonPurchaseCore, hx, hlt]

/-- C4: an address splitting on ", " into fewer than 4 parts makes
`purchaseProduct` fail with the AddressFormatError message, makes
`handleAmazonPurchase` emit no request (failing with the same message
whenever extraction got past the URL), and that message names the expected
shape "Name, Street, City, State ZIP, Country". -/
theorem c4_short_address_rejected (name addr email productId wallet url : String)
    (h : (jsSplit ", " addr).length < 4) :
    buildPurchaseRequestCore name addr email productId wallet = .error addressFormatMsg ∧
    (∀ r, handleAmazonPurchaseCore url name addr email wallet ≠ .ok r) ∧
    (∀ p, extractAmazonProductId url = .ok p →
      handleAmazonPurchaseCore url name addr email wallet = .error addressFormatMsg) ∧
    ∃ s t, addressFormatMsg = s ++ "Name, Street, City, State ZIP, Country" ++ t := by
  refine ⟨by simp [buildPurchaseRequestCore, h], ?_, ?_, ?_⟩
  · intro r
    unfold handleAmazonPurchaseCore
    cases hx : extractAmazonProductId url with
    | error e => simp
    | ok p => simp [h]
  · intro p hx
    simp [handleAmazonPurchaseCore, hx, h]
  · exact ⟨"Invalid shipping address format. Expected: ", "", rfl⟩

/-- C4 witness: the 3-part address "Jane Doe, 1 Rd, Town" is rejected. -/
theorem c4_short_address_rejected_witness :
    (jsSplit ", " "Jane Doe, 1 Rd, Town").length < 4 ∧
    buildPurchaseRequestCore "Jane Doe" "Jane Doe, 1 Rd, Town" "jane@example.com" "B08SVZ775L"
      "0xPayer" = .error addressFormatMsg :=
  ⟨by decide,
   (c4_short_address_rejected "Jane Doe" "Jane Doe, 1 Rd, Town" "jane@example.com" "B08SVZ775L"
     "0xPayer" "https://www.amazon.com/dp/B08SVZ775L" (by decide)).1⟩

/-- C6: an address splitting on ", " into exactly 4 parts (country omitted)
is accepted by `purchaseProduct`: the country token defaults to "US" and a
request is emitted with country "US". -/
theorem c6_four_parts_default_us (name addr email productId wallet : String)
    (h : (jsSplit ", " addr).length = 4) :
    jsOrD (jsSplit ", " addr)[4]? "US" = "US" ∧
    ∃ req, buildPurchaseRequestCore name addr email productId wallet = .ok req ∧
      req.recipient.physicalAddress.country = "US" := by
  have hnone : (jsSplit ", " addr)[4]? = none := by
    rw [List.getElem?_eq_none_iff]
    omega
  have hc : jsOrD (jsSplit ", " addr)[4]? "US" = "US" := by rw [hnone]; rfl
  exact ⟨hc, _, buildPurchaseRequestCore_ok name addr email productId wallet (by omega) hc, rfl⟩

/-- C6 witness: "Joyce Lee, 123 Main St, Anytown, CA 12345" (4 parts) is
accepted with default country "US". -/
theorem c6_four_parts_default_us_witness :
    (jsSplit ", " "Joyce Lee, 123 Main St, Anytown, CA 12345").length = 4 ∧
    ∃ req, buildPurchaseRequestCore "Joyce Lee" "Joyce Lee, 123 Main St, Anytown, CA 12345"
        "crossmintdemo@gmail.com" "B08SVZ775L" "0xPayer" = .ok req ∧
      req.recipient.physicalAddress.country = "US" :=
  ⟨by decide,
   (c6_four_parts_default_us "Joyce Lee" "Joyce Lee, 123 Main St, Anytown, CA 12345"
     "crossmintdemo@gmail.com" "B08SVZ775L" "0xPayer" (by decide)).2⟩

/-- C2 counterexample: with shipping address
"Joyce Lee, 123 Main St, Anytown, CA 12345, FR" the parsed country token is
"FR" ≠ "US", yet `handleAmazonPurchase` emits a purchase request (it never
validates the country), refuting the claim on that call path. -/
theorem c2_counterexample :
    (jsSplit ", " "Joyce Lee, 123 Main St, Anytown, CA 12345, FR")[4]? = some "FR" ∧
    ∃ req, handleAmazonPurchaseCore "https://www.amazon.com/dp/B08SVZ775L" "Joyce Lee"
        "Joyce Lee, 123 Main St, Anytown, CA 12345, FR" "crossmintdemo@gmail.com"
        "0xPayer" = .ok req :=
  ⟨by decide, _, rfl⟩

/-- C2 (amended): a present, non-empty country token other than "US" makes
`purchaseProduct` fail with the UnsupportedCountryError message and emit no
request; `handleAmazonPurchase`, however, performs no country validation:
whenever extraction succeeds it emits a request whose country field is the
literal "US".  (An empty fifth part is also accepted by `purchaseProduct`:
the JavaScript `||` default treats it as absent.) -/
theorem c2_non_us_country (name addr email productId wallet url : String) (c : String)
    (h4 : (jsSplit ", " addr)[4]? = some c) (hne : c ≠ "") (hus : c ≠ "US") :
    buildPurchaseRequestCore name addr email productId wallet = .error countryMsg ∧
    (∀ r, buildPurchaseRequestCore name addr email productId wallet ≠ .ok r) ∧
    (∀ p, extractAmazonProductId url = .ok p →
      ∃ req, handleAmazonPurchaseCore url name addr email wallet = .ok req ∧
        req.recipient.physicalAddress.country = "US") := by
  obtain ⟨hlen, -⟩ := List.getElem?_eq_some_iff.1 h4
  have hlt : ¬ (jsSplit ", " addr).length < 4 := by omega
  have herr : buildPurchaseRequestCore name addr email productId wallet = .error countryMsg := by
    simp [buildPurchaseRequestCore, hlt, h4, jsOrD, hne, hus]
  refine ⟨herr, ?_, ?_⟩
  · intro r
    rw [herr]
    simp
  · intro p hx
    exact ⟨_, handleAmazonPurchaseCore_ok url name addr email wallet p hx hlt, rfl⟩

/-- C2 witness: the country token "FR" is rejected by `purchaseProduct`. -/
theorem c2_non_us_country_witness :
    (jsSplit ", " "Joyce Lee, 123 Main St, Anytown, CA 12345, FR")[4]? = some "FR" ∧
    buildPurchaseRequestCore "Joyce Lee" "Joyce Lee, 123 Main St, Anytown, CA 12345, FR"
      "crossmintdemo@gmail.com" "B08SVZ775L" "0xPayer" = .error countryMsg :=
  ⟨by decide,
   (c2_non_us_country "Joyce Lee" "Joyce Lee, 123 Main St, Anytown, CA 12345, FR"
     "crossmintdemo@gmail.com" "B08SVZ775L" "0xPayer" "https://www.amazon.com/dp/B08SVZ775L"
     "FR" (by decide) (by decide) (by decide)).1⟩

/-- C3 counterexample: a request emitted by `purchaseProduct` has no
`payment.chain` field at all (modelled as `none`), so its chain does not
equal "base" as the claim requires of every emitted request. -/
theorem c3_counterexample :
    ∃ req, buildPurchaseRequestCore "Joyce Lee" "Joyce Lee, 1 SE 3rd Ave, Miami, FL 33131, US"
        "crossmintdemo@gmail.com" "B08SVZ775L" "0xPayer" = .ok req ∧
      req.payment.chain ≠ some "base" :=
  ⟨_, rfl, by decide⟩

/-- C3 (amended): every emitted request, on either call path, has exactly
one line item, currency "usdc", method "base" and hardcoded country "US";
but `payment.chain` is "base" only on the `handleAmazonPurchase` path —
`purchaseProduct` emits a request with no chain field. -/
theorem c3_request_invariants (name addr email productId wallet url : String) :
    (∀ req, buildPurchaseRequestCore name addr email productId wallet = .ok req →
      req.lineItems.length = 1 ∧ req.payment.currency = "usdc" ∧
      req.payment.method = "base" ∧ req.recipient.physicalAddress.country = "US" ∧
      req.payment.chain = none) ∧
    (∀ req, handleAmazonPurchaseCore url name addr email wallet = .ok req →
      req.lineItems.length = 1 ∧ req.payment.currency = "usdc" ∧
      req.payment.method = "base" ∧ req.recipient.physicalAddress.country = "US" ∧
      req.payment.chain = some "base") := by
  constructor
  · intro req h
    simp only [buildPurchaseRequestCore] at h
    split at h
    · simp at h
    · split at h
      · simp at h
      · simp only [Except.ok.injEq] at h
        subst h
        simp
  · intro req h
    simp only [handleAmazonPurchaseCore] at h
    split at h
    · simp at h
    · split at h
      · simp at h
      · simp only [Except.ok.injEq] at h
        subst h
        simp

/-- C9: the first ", "-delimited part of the shipping address (the name
segment) never influences the emitted request — two addresses whose split
results agree on everything but part 0 build identical requests — and the
emitted physicalAddress.name is always the separately supplied contact
name. -/
theorem c9_address_name_segment_unused (name email productId wallet a1 a2 p q : String)
    (rest : List String)
    (h1 : jsSplit ", " a1 = p :: rest) (h2 : jsSplit ", " a2 = q :: rest) :
    buildPurchaseRequestCore name a1 email productId wallet =
      buildPurchaseRequestCore name a2 email productId wallet ∧
    (∀ req, buildPurchaseRequestCore name a1 email productId wallet = .ok req →
      req.recipient.physicalAddress.name = name) := by
  constructor
  · unfold buildPurchaseRequestCore
    rw [h1, h2]
    exact rfl
  · intro req h
    simp only [buildPurchaseRequestCore] at h
    split at h
    · simp at h
    · split at h
      · simp at h
      · simp only [Except.ok.injEq] at h
        subst h
        rfl

/-- C9 witness: replacing the name segment "Joyce Lee" by "Someone Else"
leaves the emitted request unchanged. -/
theorem c9_address_name_segment_unused_witness :
    jsSplit ", " "Joyce Lee, 1 SE 3rd Ave, Miami, FL 33131, US" =
      "Joyce Lee" :: ["1 SE 3rd Ave", "Miami", "FL 33131", "US"] ∧
    buildPurchaseRequestCore "Joyce Lee" "Joyce Lee, 1 SE 3rd Ave, Miami, FL 33131, US"
        "crossmintdemo@gmail.com" "B08SVZ775L" "0xPayer" =
      buildPurchaseRequestCore "Joyce Lee" "Someone Else, 1 SE 3rd Ave, Miami, FL 33131, US"
        "crossmintdemo@gmail.com" "B08SVZ775L" "0xPayer" :=
  ⟨by decide,
   (c9_address_name_segment_unused "Joyce Lee" "crossmintdemo@gmail.com" "B08SVZ775L" "0xPayer"
     "Joyce Lee, 1 SE 3rd Ave, Miami, FL 33131, US"
     "Someone Else, 1 SE 3rd Ave, Miami, FL 33131, US"
     "Joyce Lee" "Someone Else" ["1 SE 3rd Ave", "Miami", "FL 33131", "US"]
     (by decide) (by decide)).1⟩

/-- Splitting on " " finds no cut in a list without spaces, whatever the
fuel and the accumulator. -/
theorem jsSplitAux_no_space (s : List Char) (n : Nat) (acc : List Char)
    (h : ∀ c ∈ s, c ≠ ' ') :
    jsSplitAux [' '] n s acc = [acc.reverse ++ s] := by
  induction s generalizing n acc with
  | nil => cases n <;> simp [jsSplitAux]
  | cons c cs ih =>
    cases n with
    | zero => simp [jsSplitAux]
    | succ n =>
      have hc : c ≠ ' ' := h c (List.mem_cons_self c cs)
      have hm : headMatches [' '] (c :: cs) = false := by
        simp [headMatches, hc]
      rw [jsSplitAux, if_neg (by simp [hm]),
        ih n (c :: acc) (fun x hx => h x (List.mem_cons_of_mem c hx))]
      simp

/-- A string without spaces survives a JavaScript split on " " whole. -/
theorem jsSplit_no_space (sz : String) (h : ∀ c ∈ sz.data, c ≠ ' ') :
    jsSplit " " sz = [sz] := by
  unfold jsSplit
  rw [show (" " : String).data = [' '] from rfl, jsSplitAux_no_space sz.data _ [] h]
  rfl

/-- C10: when the fourth ", "-delimited part (the "State ZIP" pair) contains
no space, request building does not fail on that account — on both call
paths the whole part becomes the state and the postalCode field is absent
(the out-of-bounds index 1 into the space-split yields no error, just
`undefined`). -/
theorem c10_state_zip_without_space (name addr email productId wallet url sz : String)
    (hlen : ¬ (jsSplit ", " addr).length < 4)
    (h3 : (jsSplit ", " addr).getD 3 "" = sz)
    (hns : ∀ c ∈ sz.data, c ≠ ' ')
    (hc : jsOrD (jsSplit ", " addr)[4]? "US" = "US") :
    (∃ req, buildPurchaseRequestCore name addr email productId wallet = .ok req ∧
      req.recipient.physicalAddress.state = sz ∧
      req.recipient.physicalAddress.postalCode = none) ∧
    (∀ p, extractAmazonProductId url = .ok p →
      ∃ req, handleAmazonPurchaseCore url name addr email wallet = .ok req ∧
        req.recipient.physicalAddress.state = sz ∧
        req.recipient.physicalAddress.postalCode = none) := by
  have hsplit : jsSplit " " ((jsSplit ", " addr)[3]?.getD "") = [sz] := by
    rw [← List.getD_eq_getElem?_getD, h3]
    exact jsSplit_no_space sz hns
  constructor
  · refine ⟨_, buildPurchaseRequestCore_ok name addr email productId wallet hlen hc, ?_, ?_⟩
    · simp [hsplit]
    · simp [hsplit]
  · intro p hx
    refine ⟨_, handleAmazonPurchaseCore_ok url name addr email wallet p hx hlen, ?_, ?_⟩
    · simp [hsplit]
    · simp [hsplit]

/-- C10 witness: the 4-part address with state/ZIP pair "CA12345" (no
space) is accepted, with state "CA12345" and no postal code. -/
theorem c10_state_zip_without_space_witness :
    (¬ (jsSplit ", " "Joyce Lee, 123 Main St, Anytown, CA12345").length < 4) ∧
    ∃ req, buildPurchaseRequestCore "Joyce Lee" "Joyce Lee, 123 Main St, Anytown, CA12345"
        "crossmintdemo@gmail.com" "B08SVZ775L" "0xPayer" = .ok req ∧
      req.recipient.physicalAddress.state = "CA12345" ∧
      req.recipient.physicalAddress.postalCode = none :=
  ⟨by decide,
   (c10_state_zip_without_space "Joyce Lee" "Joyce Lee, 123 Main St, Anytown, CA12345"
     "crossmintdemo@gmail.com" "B08SVZ775L" "0xPayer" "https://www.amazon.com/dp/B08SVZ775L"
     "CA12345" (by decide) (by decide) (by decide) (by decide)).1⟩

/-! ## Regex-scan characterization lemmas (for C1) -/

theorem dropMarker_eq_some {m : List Char} : ∀ {s r : List Char},
    dropMarker m s = some r ↔ s = m ++ r := by
  induction m with
  | nil => intro s r; simp [dropMarker]
  | cons mc ms ih =>
    intro s r
    cases s with
    | nil => simp [dropMarker]
    | cons c cs =>
      by_cases hc : c = mc
      · subst hc
        simp [dropMarker, ih]
      · simp [dropMarker, hc]

theorem takeAsin_eq_some {n : Nat} : ∀ {s a r : List Char},
    takeAsin n s = some (a, r) ↔
      (a.length = n ∧ (∀ c ∈ a, isUpperAlnum c = true) ∧ s = a ++ r) := by
  induction n with
  | zero =>
    intro s a r
    constructor
    · intro h
      simp [takeAsin] at h
      obtain ⟨ha, hr⟩ := h
      subst ha; subst hr
      simp
    · rintro ⟨hl, -, hs⟩
      rw [List.length_eq_zero] at hl
      subst hl
      simp [takeAsin, hs]
  | succ n ih =>
    intro s a r
    cases s with
    | nil =>
      simp only [takeAsin]
      constructor
      · intro h; exact absurd h (by simp)
      · rintro ⟨hl, -, hs⟩
        cases a with
        | nil => simp at hl
        | cons a0 as => simp at hs
    | cons c cs =>
      by_cases hcu : isUpperAlnum c = true
      · rw [show takeAsin (n+1) (c :: cs)
            = (takeAsin n cs).map (fun p => (c :: p.1, p.2)) from by
              simp [takeAsin, hcu]]
        constructor
        · intro h
          obtain ⟨⟨a', r'⟩, hy, hf⟩ := Option.map_eq_some'.1 h
          obtain ⟨hl, hall, hs⟩ := ih.1 hy
          obtain ⟨hfa, hfr⟩ := Prod.mk.injEq .. ▸ hf
          subst hfa; subst hfr
          refine ⟨by simp [hl], ?_, by simp [hs]⟩
          intro x hx
          rcases List.mem_cons.1 hx with h | h
          · subst h; exact hcu
          · exact hall x h
        · rintro ⟨hl, hall, hs⟩
          cases a with
          | nil => simp at hl
          | cons a0 as =>
            simp only [List.cons_append, List.cons.injEq] at hs
            obtain ⟨ha0, hcs⟩ := hs
            subst ha0
            have : takeAsin n cs = some (as, r) :=
              ih.2 ⟨by simpa using hl, fun x hx => hall x (List.mem_cons_of_mem _ hx), hcs⟩
            simp [this]
      · constructor
        · intro h
          simp [takeAsin, hcu] at h
        · rintro ⟨hl, hall, hs⟩
          cases a with
          | nil => simp at hl
          | cons a0 as =>
            simp only [List.cons_append, List.cons.injEq] at hs
            exact absurd (hs.1 ▸ hall a0 (List.mem_cons_self a0 as)) hcu

theorem sepOk_iff {post : List Char} : sepOk post = true ↔ SepShape post := by
  cases post with
  | nil => simp [sepOk, SepShape]
  | cons c t =>
    simp only [sepOk, SepShape, Bool.or_eq_true, decide_eq_true_eq]
    constructor
    · rintro (h | h)
      · exact Or.inr (Or.inl ⟨t, by rw [h]⟩)
      · exact Or.inr (Or.inr ⟨t, by rw [h]⟩)
    · rintro (h | ⟨u, hu⟩ | ⟨u, hu⟩)
      · exact absurd h (by simp)
      · exact Or.inl (List.cons.injEq .. ▸ hu).1
      · exact Or.inr (List.cons.injEq .. ▸ hu).1

theorem tryMatch_eq_some {marker s a : List Char} :
    tryMatch marker s = some a ↔ SegmentAt marker s 0 a := by
  constructor
  · intro h
    unfold tryMatch at h
    cases hdm : dropMarker marker s with
    | none => rw [hdm] at h; simp at h
    | some rest =>
      rw [hdm] at h
      simp only [Option.some_bind] at h
      cases hta : takeAsin 10 rest with
      | none => rw [hta] at h; simp at h
      | some pr =>
        obtain ⟨asin, tail⟩ := pr
        rw [hta] at h
        simp only [Option.some_bind] at h
        by_cases hsep : sepOk tail = true
        · rw [if_pos hsep] at h
          simp only [Option.some.injEq] at h
          subst h
          obtain ⟨hl, hall, hrest⟩ := takeAsin_eq_some.1 hta
          exact ⟨hl, hall, tail, by
            rw [List.drop_zero, dropMarker_eq_some.1 hdm, hrest], sepOk_iff.1 hsep⟩
        · rw [if_neg hsep] at h
          simp at h
  · rintro ⟨hl, hall, post, hs, hshape⟩
    rw [List.drop_zero] at hs
    have hdm : dropMarker marker s = some (a ++ post) := dropMarker_eq_some.2 hs
    have hta : takeAsin 10 (a ++ post) = some (a, post) :=
      takeAsin_eq_some.2 ⟨hl, hall, rfl⟩
    unfold tryMatch
    rw [hdm]
    simp only [Option.some_bind]
    rw [hta]
    simp only [Option.some_bind]
    rw [if_pos (sepOk_iff.2 hshape)]

theorem segmentAt_cons_succ {marker : List Char} {c : Char} {s : List Char} {i : Nat}
    {a : List Char} :
    SegmentAt marker (c :: s) (i + 1) a ↔ SegmentAt marker s i a := by
  simp [SegmentAt]

theorem segmentAt_nil {marker : List Char} (hm : marker ≠ []) (i : Nat) (a : List Char) :
    ¬ SegmentAt marker [] i a := by
  rintro ⟨-, -, post, hs, -⟩
  rw [List.drop_nil] at hs
  exact hm (List.append_eq_nil.1 hs.symm).1

theorem scanMatch_cons (marker : List Char) (c : Char) (cs : List Char) :
    scanMatch marker (c :: cs) =
      match tryMatch marker (c :: cs) with
      | some a => some a
      | none => scanMatch marker cs := rfl

theorem scanMatch_eq_none {marker : List Char} (hm : marker ≠ []) (s : List Char) :
    scanMatch marker s = none ↔ ∀ i a, ¬ SegmentAt marker s i a := by
  induction s with
  | nil =>
    simp only [scanMatch, true_iff]
    exact fun i a => segmentAt_nil hm i a
  | cons c cs ih =>
    rw [scanMatch_cons]
    cases ht : tryMatch marker (c :: cs) with
    | some b =>
      constructor
      · intro h
        exact absurd h (by simp)
      · intro hall
        exact (hall 0 b (tryMatch_eq_some.1 ht)).elim
    | none =>
      simp only []
      rw [ih]
      constructor
      · intro hall i a hseg
        cases i with
        | zero => exact absurd (tryMatch_eq_some.2 hseg) (by rw [ht]; simp)
        | succ i => exact hall i a (segmentAt_cons_succ.1 hseg)
      · intro hall i a hseg
        exact hall (i + 1) a (segmentAt_cons_succ.2 hseg)

theorem scanMatch_eq_some {marker : List Char} (hm : marker ≠ []) (s a : List Char) :
    scanMatch marker s = some a ↔ FirstSegment marker s a := by
  induction s with
  | nil =>
    constructor
    · intro h
      exact absurd h (by simp [scanMatch])
    · rintro ⟨i, hseg, -⟩
      exact (segmentAt_nil hm i a hseg).elim
  | cons c cs ih =>
    rw [scanMatch_cons]
    cases ht : tryMatch marker (c :: cs) with
    | some b =>
      simp only [Option.some.injEq]
      constructor
      · intro h
        subst h
        exact ⟨0, tryMatch_eq_some.1 ht, fun j hj b' => absurd hj (Nat.not_lt_zero j)⟩
      · rintro ⟨i, hseg, hmin⟩
        cases i with
        | zero =>
          have h0 := tryMatch_eq_some.2 hseg
          rw [ht] at h0
          injection h0
        | succ i =>
          exact absurd (tryMatch_eq_some.1 ht) (hmin 0 (Nat.succ_pos i) b)
    | none =>
      have h0 : ∀ b, ¬ SegmentAt marker (c :: cs) 0 b := by
        intro b hb
        have := tryMatch_eq_some.2 hb
        rw [ht] at this
        exact Option.noConfusion this
      simp only []
      rw [ih]
      constructor
      · rintro ⟨i, hseg, hmin⟩
        refine ⟨i + 1, segmentAt_cons_succ.2 hseg, ?_⟩
        intro j hj b
        cases j with
        | zero => exact h0 b
        | succ j =>
          intro hb
          exact hmin j (Nat.lt_of_succ_lt_succ hj) b (segmentAt_cons_succ.1 hb)
      · rintro ⟨i, hseg, hmin⟩
        cases i with
        | zero => exact absurd hseg (h0 a)
        | succ i =>
          refine ⟨i, segmentAt_cons_succ.1 hseg, ?_⟩
          intro j hj b hb
          exact hmin (j + 1) (Nat.succ_lt_succ hj) b (segmentAt_cons_succ.2 hb)

/-- C1: `extractAmazonProductId` succeeds with exactly the first (leftmost)
10-character uppercase-alphanumeric segment that follows a `/dp/` marker
and is terminated by '/', '?' or end-of-string; when no `/dp/` shape
matches, with the first such segment after `/gp/product/`; and on every
other URL it fails with the ExtractionError message "Could not extract
product ID from Amazon URL". -/
theorem c1_extract_first_match (url : List Char) :
    ((∀ a, extractAsin url = .ok a ↔
      (FirstSegment dpMarker url a ∨
        (¬ HasSegment dpMarker url ∧ FirstSegment gpMarker url a))) ∧
    (extractAsin url = .error extractionMsg ↔
      (¬ HasSegment dpMarker url ∧ ¬ HasSegment gpMarker url))) ∧
    (∀ a, extractAsin url = .ok a →
      extractAmazonProductId (String.mk url) = .ok (String.mk a)) ∧
    (extractAsin url = .error extractionMsg →
      extractAmazonProductId (String.mk url) = .error extractionMsg) := by
  have bridge1 : ∀ a, extractAsin url = .ok a →
      extractAmazonProductId (String.mk url) = .ok (String.mk a) := by
    intro a h
    show (extractAsin url).map String.mk = .ok (String.mk a)
    rw [h]
    rfl
  have bridge2 : extractAsin url = .error extractionMsg →
      extractAmazonProductId (String.mk url) = .error extractionMsg := by
    intro h
    show (extractAsin url).map String.mk = .error extractionMsg
    rw [h]
    rfl
  refine ⟨?_, bridge1, bridge2⟩
  have hdp : dpMarker ≠ [] := by simp [dpMarker]
  have hgp : gpMarker ≠ [] := by simp [gpMarker]
  cases hd : scanMatch dpMarker url with
  | some b =>
    have hext : extractAsin url = .ok b := by unfold extractAsin; rw [hd]
    have hfb : FirstSegment dpMarker url b := (scanMatch_eq_some hdp url b).1 hd
    have hhas : HasSegment dpMarker url := by
      obtain ⟨i, hseg, -⟩ := hfb
      exact ⟨i, b, hseg⟩
    constructor
    · intro a
      rw [hext]
      constructor
      · intro h
        injection h with h
        subst h
        exact Or.inl hfb
      · rintro (hfa | ⟨hno, -⟩)
        · have hsc := (scanMatch_eq_some hdp url a).2 hfa
          rw [hd] at hsc
          injection hsc with hsc
          rw [hsc]
        · exact absurd hhas hno
    · rw [hext]
      constructor
      · intro h
        exact absurd h (by simp)
      · rintro ⟨hno, -⟩
        exact absurd hhas hno
  | none =>
    have hnd : ¬ HasSegment dpMarker url := by
      rintro ⟨i, a, hseg⟩
      exact ((scanMatch_eq_none hdp url).1 hd) i a hseg
    cases hg : scanMatch gpMarker url with
    | some b =>
      have hext : extractAsin url = .ok b := by unfold extractAsin; rw [hd, hg]
      have hfb : FirstSegment gpMarker url b := (scanMatch_eq_some hgp url b).1 hg
      have hhas : HasSegment gpMarker url := by
        obtain ⟨i, hseg, -⟩ := hfb
        exact ⟨i, b, hseg⟩
      constructor
      · intro a
        rw [hext]
        constructor
        · intro h
          injection h with h
          subst h
          exact Or.inr ⟨hnd, hfb⟩
        · rintro (hfa | ⟨-, hfa⟩)
          · exact absurd ((scanMatch_eq_some hdp url a).2 hfa) (by rw [hd]; simp)
          · have hsc := (scanMatch_eq_some hgp url a).2 hfa
            rw [hg] at hsc
            injection hsc with hsc
            rw [hsc]
      · rw [hext]
        constructor
        · intro h
          exact absurd h (by simp)
        · rintro ⟨-, hno⟩
          exact absurd hhas hno
    | none =>
      have hng : ¬ HasSegment gpMarker url := by
        rintro ⟨i, a, hseg⟩
        exact ((scanMatch_eq_none hgp url).1 hg) i a hseg
      have hext : extractAsin url = .error extractionMsg := by
        unfold extractAsin; rw [hd, hg]
      constructor
      · intro a
        rw [hext]
        constructor
        · intro h
          exact absurd h (by simp)
        · rintro (hfa | ⟨-, hfa⟩)
          · exact absurd ((scanMatch_eq_some hdp url a).2 hfa) (by rw [hd]; simp)
          · exact absurd ((scanMatch_eq_some hgp url a).2 hfa) (by rw [hg]; simp)
      · rw [hext]
        simp [hnd, hng]
